import Mathlib

/-!
Verification of the pqt_generator pipeline (batch_decode_dataflows.py,
create_pqt_from_workspace.py) against its natural-language specification.

The Python sources are shallowly embedded below.  JSON documents are modelled
by the inductive `Json`; Python `dict`s coming from `json.load` are modelled as
association lists in insertion order (duplicate keys are collapsed at parse
time exactly as Python's `dict` does: last value wins, first position kept).
Machine-level library primitives (`base64.b64decode`, `bytes.decode("utf-8")`,
`json.loads`, `json.dump(..., indent=2)`) are re-implemented as executable
Lean functions; their documented deviations from CPython are corner cases that
no claim depends on (they are noted on each definition).  File-system effects
are made explicit: a decode step returns the list of (relative path, content)
writes it performs, and the batch / archive drivers are state-passing
functions over small structures describing the directory contents.
-/

namespace PQT

/-- A JSON value as produced by Python's `json.load`.  Objects keep insertion
order.  `num` is an integer literal; `fnum` is a number literal with a
fraction or exponent part (or one of `NaN` / `Infinity` / `-Infinity`), which
Python represents as an IEEE-754 float — here abstracted by its source lexeme
(its printed form is taken to be the lexeme itself; Python prints the shortest
float repr, which coincides on canonical lexemes). -/
inductive Json where
  | null : Json
  | bool : Bool → Json
  | num : Int → Json
  | fnum : String → Json
  | str : String → Json
  | arr : List Json → Json
  | obj : List (String × Json) → Json

/-- First binding of a key in an association list (the model of Python
`dict` lookup; parsed objects have unique keys, see `dictInsert`). -/
def jlookup (fs : List (String × Json)) (k : String) : Option Json :=
  match fs with
  | [] => none
  | (k', v) :: rest => if k' = k then some v else jlookup rest k

/-- Truthiness of a float literal: Python's `bool(float(lit))` is false
exactly when the mantissa digits are all zero. -/
def fnumTruthy (lit : String) : Bool :=
  let mant := lit.toList.takeWhile (fun c => c ≠ 'e' ∧ c ≠ 'E')
  ¬ mant.all (fun c => c = '0' ∨ c = '.' ∨ c = '-' ∨ c = '+')

/-- Python truthiness of a JSON-derived value (`None`, `""`, `0`, `0.0`,
`False`, `[]`, `{}` are falsy). -/
def jsonTruthy : Json → Bool
  | .null => false
  | .bool b => b
  | .num n => n ≠ 0
  | .fnum lit => fnumTruthy lit
  | .str s => s ≠ ""
  | .arr xs => ¬ xs.isEmpty
  | .obj fs => ¬ fs.isEmpty

/-- Value of a standard-alphabet base64 character. -/
def b64Val (c : Char) : Option Nat :=
  if 'A' ≤ c ∧ c ≤ 'Z' then some (c.toNat - 65)
  else if 'a' ≤ c ∧ c ≤ 'z' then some (c.toNat - 97 + 26)
  else if '0' ≤ c ∧ c ≤ '9' then some (c.toNat - 48 + 52)
  else if c = '+' then some 62
  else if c = '/' then some 63
  else none

/-- Bit-unpacking of a validated run of 6-bit groups (length mod 4 is 0, 2 or
3) into bytes. -/
def b64Quads : List Nat → List Nat
  | a :: b :: c :: d :: rest =>
      (a * 4 + b / 16) :: (b % 16 * 16 + c / 4) :: (c % 4 * 64 + d) :: b64Quads rest
  | [a, b] => [a * 4 + b / 16]
  | [a, b, c] => [a * 4 + b / 16, b % 16 * 16 + c / 4]
  | _ => []

/-- Model of `base64.b64decode(s)` on a `str` argument (validate=False): the
string must be pure ASCII (it is first encoded as ASCII), bytes outside the
alphabet and `=` are discarded, and the result must be alphabet characters
followed by at most two `=` pads completing a multiple of four.  (CPython's
legacy `binascii` tolerates a few more exotic padding layouts; none occur in
the claims.) -/
def b64decode (s : String) : Option (List Nat) :=
  let cs := s.toList
  if cs.any (fun c => 128 ≤ c.toNat) then none
  else
    let kept := cs.filter (fun c => (b64Val c).isSome || c == '=')
    let mainCs := kept.takeWhile (fun c => !(c == '='))
    let padCs := kept.drop mainCs.length
    if padCs.all (fun c => c == '=') ∧ padCs.length ≤ 2 ∧
        (mainCs.length + padCs.length) % 4 = 0 then
      some (b64Quads (mainCs.filterMap b64Val))
    else none

/-- Model of `bytes.decode("utf-8")` (strict): rejects bad continuation
bytes, overlong encodings, surrogates and code points above U+10FFFF. -/
def utf8decodeAux : List Nat → Option (List Char)
  | [] => some []
  | b :: rest =>
    if b < 0x80 then (utf8decodeAux rest).map (Char.ofNat b :: ·)
    else if b < 0xC2 then none
    else if b ≤ 0xDF then
      match rest with
      | c1 :: rest2 =>
        if 0x80 ≤ c1 ∧ c1 ≤ 0xBF then
          (utf8decodeAux rest2).map (Char.ofNat ((b - 0xC0) * 64 + (c1 - 0x80)) :: ·)
        else none
      | [] => none
    else if b ≤ 0xEF then
      match rest with
      | c1 :: c2 :: rest2 =>
        let lo1 := if b = 0xE0 then 0xA0 else 0x80
        let hi1 := if b = 0xED then 0x9F else 0xBF
        if lo1 ≤ c1 ∧ c1 ≤ hi1 ∧ 0x80 ≤ c2 ∧ c2 ≤ 0xBF then
          (utf8decodeAux rest2).map
            (Char.ofNat ((b - 0xE0) * 4096 + (c1 - 0x80) * 64 + (c2 - 0x80)) :: ·)
        else none
      | _ => none
    else if b ≤ 0xF4 then
      match rest with
      | c1 :: c2 :: c3 :: rest2 =>
        let lo1 := if b = 0xF0 then 0x90 else 0x80
        let hi1 := if b = 0xF4 then 0x8F else 0xBF
        if lo1 ≤ c1 ∧ c1 ≤ hi1 ∧ 0x80 ≤ c2 ∧ c2 ≤ 0xBF ∧ 0x80 ≤ c3 ∧ c3 ≤ 0xBF then
          (utf8decodeAux rest2).map
            (Char.ofNat ((b - 0xF0) * 262144 + (c1 - 0x80) * 4096 +
              (c2 - 0x80) * 64 + (c3 - 0x80)) :: ·)
        else none
      | _ => none
    else none

/-- Decode a byte list as UTF-8 text. -/
def utf8decode (bs : List Nat) : Option String :=
  (utf8decodeAux bs).map fun cs => String.mk cs

/-! ### A model of Python `json.loads` -/

/-- JSON whitespace. -/
def jsonWs (c : Char) : Bool := c == ' ' || c == '\t' || c == '\n' || c == '\r'

/-- Skip JSON whitespace. -/
def skipWs (cs : List Char) : List Char := cs.dropWhile jsonWs

/-- Value of one hexadecimal digit. -/
def hexVal (c : Char) : Option Nat :=
  if '0' ≤ c ∧ c ≤ '9' then some (c.toNat - 48)
  else if 'a' ≤ c ∧ c ≤ 'f' then some (c.toNat - 87)
  else if 'A' ≤ c ∧ c ≤ 'F' then some (c.toNat - 55)
  else none

/-- Four hex digits as a code unit. -/
def hex4 : List Char → Option (Nat × List Char)
  | h1 :: h2 :: h3 :: h4 :: rest => do
    let a ← hexVal h1
    let b ← hexVal h2
    let c ← hexVal h3
    let d ← hexVal h4
    pure (a * 4096 + b * 256 + c * 16 + d, rest)
  | _ => none

/-- Body of a JSON string literal (after the opening quote), Python `strict`
mode: literal control characters below U+0020 are rejected.  `\uXXXX` escapes
combine surrogate pairs; a lone surrogate escape is rejected here (Python
tolerates it, producing a non-Unicode `str` that this model cannot
represent — no claim depends on such inputs). -/
def parseStrBody : Nat → List Char → Option (List Char × List Char)
  | 0, _ => none
  | _, [] => none
  | fuel + 1, c :: rest =>
    if c == '"' then some ([], rest)
    else if c == '\\' then
      match rest with
      | [] => none
      | e :: rest2 =>
        if e == 'u' then
          match hex4 rest2 with
          | none => none
          | some (cp, rest3) =>
            if 0xD800 ≤ cp ∧ cp ≤ 0xDBFF then
              match rest3 with
              | '\\' :: 'u' :: rest4 =>
                match hex4 rest4 with
                | some (lo, rest5) =>
                  if 0xDC00 ≤ lo ∧ lo ≤ 0xDFFF then
                    (parseStrBody fuel rest5).map fun r =>
                      (Char.ofNat (0x10000 + (cp - 0xD800) * 1024 + (lo - 0xDC00)) :: r.1, r.2)
                  else none
                | none => none
              | _ => none
            else if 0xDC00 ≤ cp ∧ cp ≤ 0xDFFF then none
            else (parseStrBody fuel rest3).map fun r => (Char.ofNat cp :: r.1, r.2)
        else
          let dec : Option Char :=
            if e == '"' then some '"'
            else if e == '\\' then some '\\'
            else if e == '/' then some '/'
            else if e == 'b' then some (Char.ofNat 8)
            else if e == 'f' then some (Char.ofNat 12)
            else if e == 'n' then some '\n'
            else if e == 'r' then some '\r'
            else if e == 't' then some '\t'
            else none
          match dec with
          | some d => (parseStrBody fuel rest2).map fun r => (d :: r.1, r.2)
          | none => none
    else if c.toNat < 0x20 then none
    else (parseStrBody fuel rest).map fun r => (c :: r.1, r.2)

/-- A run of decimal digits and the remaining input. -/
def digitSpan (cs : List Char) : List Char × List Char :=
  (cs.takeWhile Char.isDigit, cs.dropWhile Char.isDigit)

/-- Digits to a natural number. -/
def natOfDigits (ds : List Char) : Nat :=
  ds.foldl (fun a c => a * 10 + (c.toNat - 48)) 0

/-- A JSON number literal (Python grammar `-?(0|[1-9]\d*)(\.\d+)?([eE][-+]?\d+)?`):
an integer literal yields `Json.num`, a literal with a fraction or exponent
yields `Json.fnum` carrying the lexeme. -/
def parseNumber (cs : List Char) : Option (Json × List Char) :=
  let (signCs, cs1) := if cs.take 1 = ['-'] then (['-'], cs.drop 1) else ([], cs)
  match digitSpan cs1 with
  | ([], _) => none
  | (ip, rest1) =>
    if 1 < ip.length ∧ ip.take 1 = ['0'] then none
    else
      let fracPart : Option (List Char × List Char) :=
        if rest1.take 1 = ['.'] then
          match digitSpan (rest1.drop 1) with
          | ([], _) => none
          | (fd, r) => some ('.' :: fd, r)
        else some ([], rest1)
      match fracPart with
      | none => none
      | some (frac, rest2) =>
        let expPart : Option (List Char × List Char) :=
          if rest2.take 1 = ['e'] ∨ rest2.take 1 = ['E'] then
            let eSign := if (rest2.drop 1).take 1 = ['+'] ∨ (rest2.drop 1).take 1 = ['-']
              then (rest2.drop 1).take 1 else []
            match digitSpan (rest2.drop (1 + eSign.length)) with
            | ([], _) => none
            | (ed, r) => some (rest2.take 1 ++ eSign ++ ed, r)
          else some ([], rest2)
        match expPart with
        | none => none
        | some (ex, rest3) =>
          if frac.isEmpty ∧ ex.isEmpty then
            let n : Int := Int.ofNat (natOfDigits ip)
            some (.num (if signCs.isEmpty then n else -n), rest3)
          else
            some (.fnum (String.mk (signCs ++ ip ++ frac ++ ex)), rest3)

/-- Insert a parsed object member with Python `dict` semantics: a duplicate
key overwrites the value but keeps the first insertion position. -/
def dictInsert (fs : List (String × Json)) (k : String) (v : Json) : List (String × Json) :=
  if (jlookup fs k).isSome then
    fs.map (fun p => if p.1 = k then (k, v) else p)
  else fs ++ [(k, v)]

mutual

/-- One JSON value at the head of the input (leading whitespace already
skipped); returns the value and the remaining input. -/
def parseValue : Nat → List Char → Option (Json × List Char)
  | 0, _ => none
  | _, [] => none
  | fuel + 1, c :: rest =>
    if c == '"' then
      (parseStrBody (fuel + 1) rest).map fun r => (.str (String.mk r.1), r.2)
    else if c == '\x7b' then
      match skipWs rest with
      | '\x7d' :: rest2 => some (.obj [], rest2)
      | cs2 => parseMembers fuel cs2 []
    else if c == '[' then
      match skipWs rest with
      | ']' :: rest2 => some (.arr [], rest2)
      | cs2 => parseElems fuel cs2 []
    else if (c :: rest).take 4 = ['t', 'r', 'u', 'e'] then
      some (.bool true, (c :: rest).drop 4)
    else if (c :: rest).take 5 = ['f', 'a', 'l', 's', 'e'] then
      some (.bool false, (c :: rest).drop 5)
    else if (c :: rest).take 4 = ['n', 'u', 'l', 'l'] then
      some (.null, (c :: rest).drop 4)
    else if (c :: rest).take 3 = ['N', 'a', 'N'] then
      some (.fnum "NaN", (c :: rest).drop 3)
    else if (c :: rest).take 8 = ['I', 'n', 'f', 'i', 'n', 'i', 't', 'y'] then
      some (.fnum "Infinity", (c :: rest).drop 8)
    else if (c :: rest).take 9 = ['-', 'I', 'n', 'f', 'i', 'n', 'i', 't', 'y'] then
      some (.fnum "-Infinity", (c :: rest).drop 9)
    else parseNumber (c :: rest)

/-- Members of a JSON object, accumulated with `dictInsert`; the input starts
at a (whitespace-skipped) key. -/
def parseMembers : Nat → List Char → List (String × Json) → Option (Json × List Char)
  | 0, _, _ => none
  | fuel + 1, cs, acc =>
    match cs with
    | '"' :: rest =>
      match parseStrBody (fuel + 1) rest with
      | none => none
      | some (kcs, rest2) =>
        match skipWs rest2 with
        | ':' :: rest3 =>
          match parseValue fuel (skipWs rest3) with
          | none => none
          | some (v, rest4) =>
            let acc2 := dictInsert acc (String.mk kcs) v
            match skipWs rest4 with
            | ',' :: rest5 => parseMembers fuel (skipWs rest5) acc2
            | '\x7d' :: rest5 => some (.obj acc2, rest5)
            | _ => none
        | _ => none
    | _ => none

/-- Elements of a JSON array; the input starts at a (whitespace-skipped)
value. -/
def parseElems : Nat → List Char → List Json → Option (Json × List Char)
  | 0, _, _ => none
  | fuel + 1, cs, acc =>
    match parseValue fuel cs with
    | none => none
    | some (v, rest) =>
      match skipWs rest with
      | ',' :: rest2 => parseElems fuel (skipWs rest2) (acc ++ [v])
      | ']' :: rest2 => some (.arr (acc ++ [v]), rest2)
      | _ => none

end

/-- Model of Python `json.loads`: one JSON value surrounded by optional
whitespace. -/
def jsonLoads (s : String) : Option Json :=
  let cs := skipWs s.toList
  match parseValue (4 * s.length + 16) cs with
  | none => none
  | some (v, rest) => if (skipWs rest).isEmpty then some v else none

/-! ### A model of Python `json.dump(..., indent=2, ensure_ascii=False)` -/

/-- A lowercase hexadecimal digit. -/
def hexDigit (n : Nat) : String :=
  String.singleton (("0123456789abcdef".toList).getD n '0')

/-- Escaping of one character inside a dumped JSON string with
`ensure_ascii=False`: only `"`, `\` and control characters are escaped,
everything else (including non-ASCII) is kept literally. -/
def escJChar (c : Char) : String :=
  if c == '"' then "\\\""
  else if c == '\\' then "\\\\"
  else if c == '\n' then "\\n"
  else if c == '\t' then "\\t"
  else if c == '\r' then "\\r"
  else if c == Char.ofNat 8 then "\\b"
  else if c == Char.ofNat 12 then "\\f"
  else if c.toNat < 0x20 then "\\u00" ++ hexDigit (c.toNat / 16) ++ hexDigit (c.toNat % 16)
  else String.singleton c

/-- A dumped JSON string literal. -/
def escJString (s : String) : String :=
  "\"" ++ String.join (s.toList.map escJChar) ++ "\""

/-- Indentation of `lvl` levels of two spaces. -/
def ind (lvl : Nat) : String := String.mk (List.replicate (2 * lvl) ' ')

mutual

/-- One value of Python `json.dump(v, f, indent=2, ensure_ascii=False)`
rendered at indentation level `lvl`. -/
def dumpsVal : Json → Nat → String
  | .null, _ => "null"
  | .bool true, _ => "true"
  | .bool false, _ => "false"
  | .num n, _ => toString n
  | .fnum lit, _ => lit
  | .str s, _ => escJString s
  | .arr [], _ => "[]"
  | .arr (x :: xs), lvl =>
      "[\n" ++ ind (lvl + 1) ++ dumpsVal x (lvl + 1) ++ dumpsElems xs (lvl + 1) ++
        "\n" ++ ind lvl ++ "]"
  | .obj [], _ => "\x7b\x7d"
  | .obj ((k, v) :: fs), lvl =>
      "\x7b\n" ++ ind (lvl + 1) ++ escJString k ++ ": " ++ dumpsVal v (lvl + 1) ++
        dumpsFields fs (lvl + 1) ++ "\n" ++ ind lvl ++ "\x7d"

/-- Remaining array elements, each preceded by `,\n` and indentation. -/
def dumpsElems : List Json → Nat → String
  | [], _ => ""
  | x :: xs, lvl => ",\n" ++ ind lvl ++ dumpsVal x lvl ++ dumpsElems xs lvl

/-- Remaining object members, each preceded by `,\n` and indentation. -/
def dumpsFields : List (String × Json) → Nat → String
  | [], _ => ""
  | (k, v) :: fs, lvl =>
      ",\n" ++ ind lvl ++ escJString k ++ ": " ++ dumpsVal v lvl ++ dumpsFields fs lvl

end

/-- Top-level `json.dump(v, f, indent=2, ensure_ascii=False)` output. -/
def dumps2 (j : Json) : String := dumpsVal j 0

/-! ### PayloadDecoder: the per-part decode step of
`decode_dataflow_definition` (src/batch_decode_dataflows.py, lines 39-80).
A part is one element of `definition.parts`; the three fields are read with
`part.get(...)`, so each is an optional JSON value. -/

/-- One `Part` record: `path`, `payload` and `payloadType` as read by
`part.get('path')`, `part.get('payload')`, `part.get('payloadType')`. -/
structure Part where
  path : Option Json
  payload : Option Json
  payloadType : Option Json

/-- Model of Python `s.endswith(pat)`. -/
def strEndsWith (s pat : String) : Bool :=
  decide (pat.toList = s.toList.drop (s.toList.length - pat.toList.length))

/-- `payload_type == 'InlineBase64'`: Python equality of the read value with
the string literal. -/
def isInlineBase64 : Option Json → Bool
  | some (.str s) => s = "InlineBase64"
  | _ => false

/-- `and payload`: truthiness of the read payload (`None` when absent). -/
def payloadTruthy : Option Json → Bool
  | some v => jsonTruthy v
  | none => false

/-- The `try:` block of the decode branch (lines 45-75).  `none` models an
exception (caught at line 76): a non-`str` payload (`TypeError` in
`b64decode`), invalid base64, invalid UTF-8, a non-`str` path
(`AttributeError` at `path.endswith`), or a JSON parse failure for a `.json`
path.  On success it returns the decoded part together with the list of
(relative path, file content) writes performed under `output_dir`. -/
def part_try_decode (p : Part) : Option (Part × List (String × String)) :=
  match p.payload with
  | some (.str s) =>
    match b64decode s with
    | none => none
    | some bs =>
      match utf8decode bs with
      | none => none
      | some text =>
        match p.path with
        | some (.str path) =>
          if strEndsWith path ".json" then
            match jsonLoads text with
            | none => none
            | some j =>
              some ({ path := p.path, payload := some j,
                      payloadType := some (.str "DecodedJSON") },
                    [(path, dumps2 j)])
          else
            some ({ path := p.path, payload := some (.str text),
                    payloadType := some (.str "DecodedText") },
                  [(path, text)])
        | _ => none
  | _ => none

/-- The whole per-part step (lines 44-80): parts that are not
`InlineBase64`-typed or have a falsy payload pass through unchanged; a decode
candidate is decoded, falling back to the original part (and no file write)
when the `try:` block raises. -/
def decodePart (p : Part) : Part × List (String × String) :=
  if isInlineBase64 p.payloadType && payloadTruthy p.payload then
    match part_try_decode p with
    | some r => r
    | none => (p, [])
  else (p, [])

/-- The parts loop of `decode_dataflow_definition` (lines 36-80): the
`decoded_parts` sequence accumulated in document order. -/
def decode_definition_parts (parts : List Part) : List Part :=
  parts.map fun p => (decodePart p).1

/-! ### Filename metadata (src/batch_decode_dataflows.py, lines 101-130) -/

/-- Does `pat` occur at the head of `cs`? -/
def patAtHead : List Char → List Char → Bool
  | [], _ => true
  | _ :: _, [] => false
  | p :: ps, c :: cs => p == c && patAtHead ps cs

/-- Left-to-right non-overlapping replacement on character lists (`pat`
nonempty; the fuel is an upper bound on the scan length). -/
def pyReplaceAux : Nat → List Char → List Char → List Char → List Char
  | 0, _, _, _ => []
  | _ + 1, [], _, _ => []
  | fuel + 1, c :: rest, pat, rep =>
    if patAtHead pat (c :: rest) then
      rep ++ pyReplaceAux fuel ((c :: rest).drop pat.length) pat rep
    else c :: pyReplaceAux fuel rest pat rep

/-- Model of Python `s.replace(pat, rep)` for nonempty `pat`: every
occurrence, scanning left to right without overlap. -/
def pyReplace (s pat rep : String) : String :=
  String.mk (pyReplaceAux (s.length + 1) s.toList pat.toList rep.toList)

/-- Splitting scan for `pySplit` (`pat` nonempty). -/
def pySplitAux : Nat → List Char → List Char → List Char → List String
  | 0, _, _, acc => [String.mk acc]
  | _ + 1, [], _, acc => [String.mk acc]
  | fuel + 1, c :: rest, pat, acc =>
    if patAtHead pat (c :: rest) then
      String.mk acc :: pySplitAux fuel ((c :: rest).drop pat.length) pat []
    else pySplitAux fuel rest pat (acc ++ [c])

/-- Model of Python `s.split(pat)` for nonempty `pat`: non-overlapping
left-to-right splitting keeping empty pieces (`"".split(pat) == [""]`). -/
def pySplit (s pat : String) : List String :=
  pySplitAux (s.length + 1) s.toList pat.toList []

/-- The metadata dictionary returned by `extract_metadata_from_filename`. -/
structure FilenameMetadata where
  workspace_id : String
  item_id : String
  name : String
  itemType : String
deriving DecidableEq

/-- `extract_metadata_from_filename` (lines 101-130): Python
`filename.replace('.json', '')` removes every occurrence of the substring
`.json`, then the result is split on `__`; at least five tokens with leading
token `WS` yield the metadata at token indices 1..4, anything else yields
`None`.  Nothing in the body can raise, so the `try/except` is invisible. -/
def extract_metadata_from_filename (filename : String) : Option FilenameMetadata :=
  let name_parts := pyReplace filename ".json" ""
  match pySplit name_parts "__" with
  | "WS" :: w :: i :: n :: t :: _ => some ⟨w, i, n, t⟩
  | _ => none

/-- Modelled from the spec's words (for comparison with the code): the
claimed criterion removes only the `.json` extension before splitting. -/
def extract_metadata_claimed (filename : String) : Option FilenameMetadata :=
  let stem := if strEndsWith filename ".json" then filename.dropRight 5 else filename
  match pySplit stem "__" with
  | "WS" :: w :: i :: n :: t :: _ => some ⟨w, i, n, t⟩
  | _ => none

/-! ### Metadata derivation (src/create_pqt_from_workspace.py, lines 68-103).
Python dynamic operations on loosely typed JSON are modelled with `none`
standing for a raised `TypeError` / `AttributeError`. -/

/-- Does the string `s` contain `pat` (`pat` nonempty)? -/
def strContains (s pat : String) : Bool := 1 < (pySplit s pat).length

/-- Python `k in x` for a JSON-derived `x`: key test on a dict, membership on
a list, substring test on a string, `TypeError` (`none`) otherwise. -/
def jsonContainsKey (j : Json) (k : String) : Option Bool :=
  match j with
  | .obj fs => some (jlookup fs k).isSome
  | .arr xs => some (xs.any fun x => match x with | .str s => s = k | _ => false)
  | .str s => some (strContains s k)
  | _ => none

/-- Python `x[k]` with a string key: succeeds only on a dict (the call sites
test `k in x` first, so `KeyError` cannot occur); `TypeError` (`none`)
otherwise. -/
def jsonGetItemStr (j : Json) (k : String) : Option Json :=
  match j with
  | .obj fs => jlookup fs k
  | _ => none

/-- Python `x.items()`: only a dict has it (`AttributeError` otherwise). -/
def jsonItems : Json → Option (List (String × Json))
  | .obj fs => some fs
  | _ => none

/-- Python `x.get(k, dflt)`: only a dict has `.get` (`AttributeError`
otherwise). -/
def dictGet (j : Json) (k : String) (dflt : Json) : Option Json :=
  match j with
  | .obj fs => some ((jlookup fs k).getD dflt)
  | _ => none

/-- Loop body of `create_mashup_metadata` (lines 76-80): `{"Name": name}`,
extended with `IsHidden` when `"isHidden" in query_info`. -/
def mkQueryEntry (name : String) (info : Json) : Option Json := do
  let hasHidden ← jsonContainsKey info "isHidden"
  if hasHidden then
    let v ← jsonGetItemStr info "isHidden"
    pure (.obj [("Name", .str name), ("IsHidden", v)])
  else
    pure (.obj [("Name", .str name)])

/-- The `queries_metadata.append` loop over `.items()` in document order. -/
def buildQueriesMetadata : List (String × Json) → Option (List Json)
  | [] => some []
  | (name, info) :: rest => do
    let e ← mkQueryEntry name info
    let es ← buildQueriesMetadata rest
    pure (e :: es)

/-- `create_mashup_metadata` (lines 68-87) applied to the parsed content of
`queryMetadata.json`; `none` models a raised exception (caught by the caller
`create_pqtzip_structure`). -/
def create_mashup_metadata (query_metadata : Json) : Option Json := do
  let has ← jsonContainsKey query_metadata "queriesMetadata"
  let entries ←
    if has then do
      let qmv ← jsonGetItemStr query_metadata "queriesMetadata"
      let items ← jsonItems qmv
      buildQueriesMetadata items
    else pure []
  pure (.obj [("Version", .str "1.0.0.0"), ("QueriesMetadata", .arr entries)])

/-- `create_metadata` (lines 90-103) applied to the parsed content of
`.platform`; `none` models a raised exception. -/
def create_metadata (platform_data : Json) : Option Json := do
  let cfg ← dictGet platform_data "config" (.obj [])
  let display_name ← dictGet cfg "displayName" (.str "Dataflow")
  pure (.obj [("Name", display_name), ("Description", .str ""),
              ("Version", .str "1.0.0.0")])

/-- The entry shape asserted by the spec for one query of
`queriesMetadata`: `{"Name": name}` extended with `IsHidden` exactly when
`isHidden` is present in the source entry. -/
def claimedQueryEntry (name : String) (info : List (String × Json)) : Json :=
  match jlookup info "isHidden" with
  | some v => .obj [("Name", .str name), ("IsHidden", v)]
  | none => .obj [("Name", .str name)]

/-- The `Name` value asserted by the spec for `Metadata.json`:
`config.displayName`, defaulting to `"Dataflow"` when `config` or
`displayName` is absent. -/
def claimedDisplayName (p : List (String × Json)) : Json :=
  match jlookup p "config" with
  | some (.obj c) => (jlookup c "displayName").getD (.str "Dataflow")
  | _ => .str "Dataflow"

/-! ### TemplateAssembler (src/create_pqt_from_workspace.py, lines 115-171).
The file system around one item directory is abstracted into `AssembleEnv`:
each primitive that can raise is given a success flag, and each optional
input file is given its presence and parsed content (`some none` models a
file whose read or JSON parse raises). -/

/-- Environment of one `create_pqtzip_structure` call. -/
structure AssembleEnv where
  mkdirOk : Bool
  copyMashupOk : Bool
  queryMetadataFile : Option (Option Json)
  platformFile : Option (Option Json)
  writeMashupMetadataOk : Bool
  writeMetadataOk : Bool
  writeContentTypesOk : Bool

/-- The `try: ... return True / except: ... return False` wrapper of both
assembler functions. -/
def runCatch (body : Except String Unit) : Except String Bool :=
  match body with
  | .ok _ => .ok true
  | .error _ => .ok false

/-- One optional-input staging step, the common shape of steps 2 and 3 of
`create_pqtzip_structure` (lines 126-138): if the input file exists, read
and parse it (raising on failure), transform it (raising on failure —
`none` of the transform models the raised exception) and write the derived
document (raising on failure); an absent file is skipped. -/
def stagingStep (content : Option (Option Json)) (transform : Json → Option Json)
    (writeOk : Bool) (readMsg transformMsg writeMsg : String) : Except String Unit :=
  match content with
  | some c =>
    match c with
    | none => throw readMsg
    | some j =>
      match transform j with
      | none => throw transformMsg
      | some _ => if !writeOk then throw writeMsg else pure ()
  | none => pure ()

/-- The `try:` body of `create_pqtzip_structure` (lines 120-145): script
copy, the two optional metadata derivations, and the content-types write. -/
def pqtzipBody (env : AssembleEnv) : Except String Unit := do
  if !env.copyMashupOk then throw "copy mashup.pq failed"
  stagingStep env.queryMetadataFile create_mashup_metadata env.writeMashupMetadataOk
    "read queryMetadata.json raised" "create_mashup_metadata raised"
    "write MashupMetadata.json failed"
  stagingStep env.platformFile create_metadata env.writeMetadataOk
    "read .platform raised" "create_metadata raised" "write Metadata.json failed"
  if !env.writeContentTypesOk then throw "write content types failed"

/-- `create_pqtzip_structure` (lines 115-149).  `pqtzip_dir.mkdir(...)`
(line 118) runs before the `try:`, so its failure propagates as `.error`;
every failure inside the `try:` is caught and turned into `.ok false`. -/
def create_pqtzip_structure (env : AssembleEnv) : Except String Bool :=
  if !env.mkdirOk then .error "mkdir pqtzip failed"
  else runCatch (pqtzipBody env)

/-- Does one optional-input staging step raise? -/
def stepFails (content : Option (Option Json)) (transform : Json → Option Json)
    (writeOk : Bool) : Bool :=
  match content with
  | some none => true
  | some (some j) => (transform j).isNone || !writeOk
  | none => false

/-- Does the `try:` body of `create_pqtzip_structure` raise? -/
def assembleBodyFails (env : AssembleEnv) : Bool :=
  !env.copyMashupOk ||
  stepFails env.queryMetadataFile create_mashup_metadata env.writeMashupMetadataOk ||
  stepFails env.platformFile create_metadata env.writeMetadataOk ||
  !env.writeContentTypesOk

/-- `create_pqt_archive` (lines 152-171): an absent `pqtzip` directory
returns `False` before the `try:` (`pqtzip_dir.exists()` cannot raise); the
ZIP assembly failure inside the `try:` is caught and returns `False`. -/
def create_pqt_archive (pqtzipExists : Bool) (zipOk : Bool) : Except String Bool :=
  if !pqtzipExists then .ok false
  else runCatch (if !zipOk then throw "zip failed" else pure ())

/-! ### BatchDecodeDriver (src/batch_decode_dataflows.py, lines 133-206).
The source directory is a structure holding its existence flag, its
top-level `*.json` files in listing order (each with the result of
`json.load`, `none` when the file is not valid JSON), and the lines of
`item_mapping.txt`.  A re-run is a second application to the state left by
the first run. -/

/-- Python `part.get(...)` projections of one element of the parts sequence
(`AttributeError`, hence an uncaught item-level exception, on a non-dict). -/
def asPart : Json → Option Part
  | .obj fs => some ⟨jlookup fs "path", jlookup fs "payload", jlookup fs "payloadType"⟩
  | _ => none

/-- Python `for part in parts:` — the elements iteration yields: a list its
elements, a dict its keys, a string its characters (as 1-character strings);
anything else raises `TypeError` (`none`). -/
def partsIter : Json → Option (List Json)
  | .arr xs => some xs
  | .obj fs => some (fs.map fun p => .str p.1)
  | .str s => some (s.toList.map fun c => .str (String.singleton c))
  | _ => none

/-- The part records over which `decode_dataflow_definition` iterates, read
from the parsed input document (lines 39-42); `none` models an exception
that escapes `decode_dataflow_definition` and is caught per file by the
batch loop (line 194). -/
def loadParts (j : Json) : Option (List Part) := do
  let defn ← dictGet j "definition" (.obj [])
  let parts ← dictGet defn "parts" (.arr [])
  let elems ← partsIter parts
  elems.mapM asPart

/-- One source file of the batch directory: its name and the result of
`json.load` on its content. -/
structure SrcFile where
  name : String
  content : Option Json

/-- State of the source directory seen by `batch_decode_directory`. -/
structure SourceDir where
  dirExists : Bool
  files : List SrcFile
  mapping : List String

/-- The classified console outcomes of one run (the printed messages that
distinguish the failure modes). -/
inductive BatchMsg where
  | notFound : BatchMsg
  | noJsonFiles : BatchMsg
  | fileOk : String → BatchMsg
  | fileError : String → BatchMsg
deriving DecidableEq

/-- Does `decode_dataflow_definition` succeed on this file?  It raises
exactly when `json.load` fails or the parts extraction raises; everything
else it does (directory creation, per-part decode with its internal
fallback, writes, source copy) completes. -/
def fileDecodes (f : SrcFile) : Bool :=
  match f.content with
  | some j => (loadParts j).isSome
  | none => false

/-- `f"item_{idx:03d}"`: three-digit zero-padded index. -/
def pad3 (idx : Nat) : String :=
  if idx < 10 then "00" ++ toString idx
  else if idx < 100 then "0" ++ toString idx
  else toString idx

/-- The `item_mapping.txt` line appended for a successfully decoded file
(lines 180-185): the rich form when the filename metadata parses, the
fallback arrow form otherwise. -/
def mappingLine (idx : Nat) (fname : String) : String :=
  match extract_metadata_from_filename fname with
  | some m =>
      "item_" ++ pad3 idx ++ " | WorkspaceID: " ++ m.workspace_id ++
        " | ItemID: " ++ m.item_id ++ " | Name: " ++ m.name ++
        " | Type: " ++ m.itemType ++ " | File: " ++ fname
  | none => "item_" ++ pad3 idx ++ " -> " ++ fname

/-- The per-file loop (lines 163-196), 1-based index: a successful decode
appends its mapping line and deletes the source file; a failure keeps the
file and counts an error.  Returns (files left in place, appended lines,
messages, successes, errors). -/
def batchLoop : Nat → List SrcFile → List SrcFile × List String × List BatchMsg × Nat × Nat
  | _, [] => ([], [], [], 0, 0)
  | idx, f :: rest =>
    let (keptRest, lines, msgs, s, e) := batchLoop (idx + 1) rest
    if fileDecodes f then
      (keptRest, mappingLine idx f.name :: lines, .fileOk f.name :: msgs, s + 1, e)
    else
      (f :: keptRest, lines, .fileError f.name :: msgs, s, e + 1)

/-- `batch_decode_directory` (lines 133-206): missing directory and empty
match list return `False` up front with their distinct messages; otherwise
the per-file loop runs, `item_mapping.txt` grows by appending (mode `'a'`),
and the run reports success iff at least one file decoded. -/
def batch_decode_directory (d : SourceDir) : Bool × SourceDir × List BatchMsg :=
  if !d.dirExists then (false, d, [.notFound])
  else if d.files.isEmpty then (false, d, [.noJsonFiles])
  else
    let (kept, lines, msgs, s, _e) := batchLoop 1 d.files
    (decide (0 < s), { d with files := kept, mapping := d.mapping ++ lines }, msgs)

/-! ### WorkspaceConverter partition and copy steps
(src/create_pqt_from_workspace.py, lines 216-237 and 307-349). -/

/-- One candidate item directory: its name, whether
`<item_dir_name>.pqt` exists inside it, and an abstract fingerprint of its
current contents. -/
structure ItemDir where
  name : String
  hasPqt : Bool
  content : Nat

/-- A destination directory tree (`with_dataflows` or the output location)
as a name-indexed association list of content fingerprints. -/
abbrev DirMap := List (String × Nat)

/-- Lookup in a destination tree. -/
def dirLookup (m : DirMap) (k : String) : Option Nat :=
  match m with
  | [] => none
  | (k', v) :: rest => if k' = k then some v else dirLookup rest k

/-- `shutil.rmtree`: drop the named subdirectory. -/
def dirRemove (m : DirMap) (k : String) : DirMap :=
  m.filter fun p => !(p.1 == k)

/-- The traced move-step primitives. -/
inductive MoveOp where
  | rmtree : String → MoveOp
  | move : String → MoveOp
deriving DecidableEq

/-- The body of the step-6 partition loop for one item (lines 315-349),
successful-attempt path of the bounded-retry wrapper: an item without a
`.pqt` file is skipped; otherwise an existing destination
`with_dataflows/<name>` is first removed with `shutil.rmtree` and the item is
then moved there.  Returns the new destination tree and the operation
trace. -/
def movePqtItem (wd : DirMap) (i : ItemDir) : DirMap × List MoveOp :=
  if !i.hasPqt then (wd, [])
  else if (dirLookup wd i.name).isSome then
    (dirRemove wd i.name ++ [(i.name, i.content)], [.rmtree i.name, .move i.name])
  else
    (wd ++ [(i.name, i.content)], [.move i.name])

/-- The step-6 loop over all copied items. -/
def movePqtItems (items : List ItemDir) (wd : DirMap) : DirMap × List MoveOp :=
  match items with
  | [] => (wd, [])
  | i :: rest =>
    let (wd1, ops1) := movePqtItem wd i
    let (wd2, ops2) := movePqtItems rest wd1
    (wd2, ops1 ++ ops2)

/-- The body of the step-4 copy loop for one item
(`copy_dataflow_items`, lines 227-235): the directory is copied only when
the destination does not already exist; an existing destination is left
untouched (and no copy operation is performed). -/
def copyDataflowItem (out : DirMap) (i : ItemDir) : DirMap × Bool :=
  if (dirLookup out i.name).isSome then (out, false)
  else (out ++ [(i.name, i.content)], true)

/-! ## Shared lemmas -/

/-- `isInlineBase64` holds exactly on the string value `InlineBase64`. -/
theorem isInlineBase64_iff (o : Option Json) :
    isInlineBase64 o = true ↔ o = some (Json.str "InlineBase64") := by
  cases o with
  | none => simp [isInlineBase64]
  | some v => cases v <;> simp [isInlineBase64]

/-- Whenever the `try:` block of the decode branch raises, the original part
is appended and nothing is written. -/
theorem decodePart_fallback (p : Part) (hnone : part_try_decode p = none) :
    decodePart p = (p, []) := by
  unfold decodePart
  split
  · rw [hnone]
  · rfl

/-- A successfully decoded part keeps its `path` and carries one of the two
decoded payload kinds. -/
theorem part_try_decode_shape (p : Part) (r : Part × List (String × String))
    (h : part_try_decode p = some r) :
    ∃ pay ptype, r.1 = ⟨p.path, some pay, some (Json.str ptype)⟩ ∧
      (ptype = "DecodedJSON" ∨ ptype = "DecodedText") := by
  rcases hp : p.payload with _ | v
  · simp [part_try_decode, hp] at h
  cases v with
  | str s =>
    rcases hb : b64decode s with _ | bs
    · simp [part_try_decode, hp, hb] at h
    rcases hu : utf8decode bs with _ | text
    · simp [part_try_decode, hp, hb, hu] at h
    rcases hpath : p.path with _ | pv
    · simp [part_try_decode, hp, hb, hu, hpath] at h
    cases pv with
    | str path =>
      rcases hew : strEndsWith path ".json" with _ | _
      · simp only [part_try_decode, hp, hb, hu, hpath, hew, Bool.false_eq_true,
          if_false, Option.some.injEq] at h
        exact ⟨Json.str text, "DecodedText", by rw [← h], Or.inr rfl⟩
      · rcases hl : jsonLoads text with _ | j
        · simp [part_try_decode, hp, hb, hu, hpath, hew, hl] at h
        · simp only [part_try_decode, hp, hb, hu, hpath, hew, if_true,
            hl, Option.some.injEq] at h
          exact ⟨j, "DecodedJSON", by rw [← h], Or.inl rfl⟩
    | null => simp [part_try_decode, hp, hb, hu, hpath] at h
    | bool b => simp [part_try_decode, hp, hb, hu, hpath] at h
    | num n => simp [part_try_decode, hp, hb, hu, hpath] at h
    | fnum l => simp [part_try_decode, hp, hb, hu, hpath] at h
    | arr xs => simp [part_try_decode, hp, hb, hu, hpath] at h
    | obj fs => simp [part_try_decode, hp, hb, hu, hpath] at h
  | null => simp [part_try_decode, hp] at h
  | bool b => simp [part_try_decode, hp] at h
  | num n => simp [part_try_decode, hp] at h
  | fnum l => simp [part_try_decode, hp] at h
  | arr xs => simp [part_try_decode, hp] at h
  | obj fs => simp [part_try_decode, hp] at h

/-- Every output of `decodePart` is the original part or a decoded part with
the original path. -/
theorem decodePart_shape (p : Part) :
    (decodePart p).1 = p ∨
    ∃ pay ptype, (decodePart p).1 = ⟨p.path, some pay, some (Json.str ptype)⟩ ∧
      (ptype = "DecodedJSON" ∨ ptype = "DecodedText") := by
  unfold decodePart
  split
  · rcases htd : part_try_decode p with _ | r
    · simp
    · right; simpa using part_try_decode_shape p r htd
  · left; rfl

/-! ## Claims -/

/-- C1: for every Part with payloadType `InlineBase64` and a non-null,
non-empty payload whose base64 decodes to valid UTF-8 text: if the part's
path ends with `.json`, PayloadDecoder produces a part with the parsed JSON
value as payload and payloadType `DecodedJSON`; otherwise it produces the
raw decoded text as payload with payloadType `DecodedText`; in both cases
the decoded content is written to `output_dir/<path>` (JSON parts
pretty-printed with 2-space indent and non-ASCII preserved, text parts as
raw text). -/
theorem payload_decoder_decodes (p : Part) (s path text : String) (bs : List Nat)
    (hpt : p.payloadType = some (Json.str "InlineBase64"))
    (hpay : p.payload = some (Json.str s)) (hne : s ≠ "")
    (hb64 : b64decode s = some bs) (hutf : utf8decode bs = some text)
    (hpath : p.path = some (Json.str path)) :
    (∀ j, strEndsWith path ".json" = true → jsonLoads text = some j →
      decodePart p = ({ path := p.path, payload := some j,
                        payloadType := some (Json.str "DecodedJSON") },
                      [(path, dumps2 j)])) ∧
    (strEndsWith path ".json" = false →
      decodePart p = ({ path := p.path, payload := some (Json.str text),
                        payloadType := some (Json.str "DecodedText") },
                      [(path, text)])) := by
  have h1 : isInlineBase64 p.payloadType = true := by simp [isInlineBase64, hpt]
  have h2 : payloadTruthy (some (Json.str s)) = true := by
    simp [payloadTruthy, jsonTruthy, hne]
  constructor
  · intro j hj hload
    simp [decodePart, h1, h2, part_try_decode, hpay, hb64, hutf, hpath, hj, hload]
  · intro hj
    simp [decodePart, h1, h2, part_try_decode, hpay, hb64, hutf, hpath, hj]

/-- Witness for C1: a concrete `.json`-path part carrying base64 of the text
of a JSON object decodes to the parsed object, payloadType `DecodedJSON`,
and the pretty-printed file write. -/
theorem payload_decoder_decodes_witness :
    decodePart ⟨some (Json.str "a.json"), some (Json.str "eyJhIjogMX0="),
        some (Json.str "InlineBase64")⟩ =
      ({ path := some (Json.str "a.json"),
         payload := some (Json.obj [("a", Json.num 1)]),
         payloadType := some (Json.str "DecodedJSON") },
       [("a.json", "\x7b\n  \"a\": 1\n\x7d")]) :=
  (payload_decoder_decodes _ "eyJhIjogMX0=" "a.json" "\x7b\"a\": 1\x7d"
      [123, 34, 97, 34, 58, 32, 49, 125] rfl rfl (by decide) rfl rfl rfl).1
    (Json.obj [("a", Json.num 1)]) rfl rfl

/-- C2: for every Part whose decode fails (invalid base64, invalid UTF-8,
or — for a `.json` path — a JSON parse failure), the failure does not raise
past the item boundary: the original undecoded Part is substituted in the
output sequence at the same index (with no file write) and the rest of the
item's parts are still processed. -/
theorem payload_decoder_failure_preserves (parts : List Part) (i : Nat)
    (hi : i < parts.length) (h2 : i < (decode_definition_parts parts).length)
    (s : String)
    (_hpt : parts[i].payloadType = some (Json.str "InlineBase64"))
    (hpay : parts[i].payload = some (Json.str s)) (_hne : s ≠ "")
    (hfail : b64decode s = none ∨
      (∃ bs, b64decode s = some bs ∧ utf8decode bs = none) ∨
      (∃ bs text path, b64decode s = some bs ∧ utf8decode bs = some text ∧
        parts[i].path = some (Json.str path) ∧ strEndsWith path ".json" = true ∧
        jsonLoads text = none)) :
    decodePart parts[i] = (parts[i], []) ∧
    (decode_definition_parts parts)[i] = parts[i] ∧
    (decode_definition_parts parts).length = parts.length ∧
    ∀ j (hj : j < parts.length) (hj2 : j < (decode_definition_parts parts).length),
      (decode_definition_parts parts)[j] = (decodePart parts[j]).1 := by
  have hnone : part_try_decode parts[i] = none := by
    rcases hfail with hb | ⟨bs, hb, hu⟩ | ⟨bs, text, path, hb, hu, hpath, hew, hl⟩
    · simp [part_try_decode, hpay, hb]
    · simp [part_try_decode, hpay, hb, hu]
    · simp [part_try_decode, hpay, hb, hu, hpath, hew, hl]
  have hfb := decodePart_fallback _ hnone
  refine ⟨hfb, ?_, by simp [decode_definition_parts], ?_⟩
  · simp [decode_definition_parts, hfb]
  · intro j hj hj2
    simp [decode_definition_parts]

/-- Witness for C2: a part with the non-base64 payload `"A"` falls back to
itself with no write. -/
theorem payload_decoder_failure_preserves_witness :
    decodePart ⟨some (Json.str "a.json"), some (Json.str "A"),
        some (Json.str "InlineBase64")⟩ =
      (⟨some (Json.str "a.json"), some (Json.str "A"),
        some (Json.str "InlineBase64")⟩, []) :=
  (payload_decoder_failure_preserves
      [⟨some (Json.str "a.json"), some (Json.str "A"), some (Json.str "InlineBase64")⟩]
      0 (by decide) (by decide) "A" rfl rfl (by decide) (Or.inl rfl)).1

/-- C3: for every Part whose payloadType is not `InlineBase64`, or whose
payload is null or empty, PayloadDecoder returns that Part unchanged with no
file write. -/
theorem payload_decoder_passthrough (p : Part)
    (h : p.payloadType ≠ some (Json.str "InlineBase64") ∨
      p.payload = none ∨ p.payload = some Json.null ∨ p.payload = some (Json.str "")) :
    decodePart p = (p, []) := by
  have hg : (isInlineBase64 p.payloadType && payloadTruthy p.payload) = false := by
    rcases h with h | h | h | h
    · cases hb : isInlineBase64 p.payloadType with
      | false => simp
      | true => exact absurd ((isInlineBase64_iff _).1 hb) h
    · simp [h, payloadTruthy]
    · simp [h, payloadTruthy, jsonTruthy]
    · rw [h]; exact Bool.and_false _
  simp [decodePart, hg]

/-- Witness for C3: a part typed `Other` passes through unchanged. -/
theorem payload_decoder_passthrough_witness :
    decodePart ⟨some (Json.str "x.json"), some (Json.str "abc"),
        some (Json.str "Other")⟩ =
      (⟨some (Json.str "x.json"), some (Json.str "abc"),
        some (Json.str "Other")⟩, []) :=
  payload_decoder_passthrough _ (Or.inl (by simp))

/-- C4: for every parts sequence of N parts, DefinitionDecoder yields a
decoded parts sequence with exactly N entries, in the same order, each entry
being the decoded part (same path, `DecodedJSON`/`DecodedText` payload) or
the original pass-through/fallback Part at that position. -/
theorem definition_decoder_roundtrip (parts : List Part) :
    (decode_definition_parts parts).length = parts.length ∧
    ∀ i (hi : i < parts.length) (h2 : i < (decode_definition_parts parts).length),
      (decode_definition_parts parts)[i] = (decodePart parts[i]).1 ∧
      ((decode_definition_parts parts)[i] = parts[i] ∨
        ∃ pay ptype, (decode_definition_parts parts)[i] =
          ⟨parts[i].path, some pay, some (Json.str ptype)⟩ ∧
          (ptype = "DecodedJSON" ∨ ptype = "DecodedText")) := by
  refine ⟨by simp [decode_definition_parts], ?_⟩
  intro i hi h2
  have hm : (decode_definition_parts parts)[i] = (decodePart parts[i]).1 := by
    simp [decode_definition_parts]
  exact ⟨hm, by rw [hm]; exact decodePart_shape _⟩

/-- Witness for C4 on a concrete two-part definition. -/
theorem definition_decoder_roundtrip_witness :
    (decode_definition_parts [⟨none, none, none⟩]).length = 1 ∧
    (decode_definition_parts [⟨none, none, none⟩]).get
        ⟨0, by simp [decode_definition_parts]⟩ = (decodePart ⟨none, none, none⟩).1 :=
  ⟨(definition_decoder_roundtrip [⟨none, none, none⟩]).1,
    ((definition_decoder_roundtrip [⟨none, none, none⟩]).2 0 (by decide)
      (by simp [decode_definition_parts])).1⟩

/-- One object-valued query entry transforms to the claimed `{Name,
IsHidden?}` record. -/
theorem buildQueriesMetadata_objs (qs : List (String × List (String × Json))) :
    buildQueriesMetadata (qs.map fun e => (e.1, Json.obj e.2)) =
      some (qs.map fun e => claimedQueryEntry e.1 e.2) := by
  induction qs with
  | nil => rfl
  | cons e rest ih =>
    have he : mkQueryEntry e.1 (Json.obj e.2) = some (claimedQueryEntry e.1 e.2) := by
      unfold mkQueryEntry claimedQueryEntry
      rcases hl : jlookup e.2 "isHidden" with _ | v
      · simp [jsonContainsKey, jsonGetItemStr, hl]
      · simp [jsonContainsKey, jsonGetItemStr, hl]
    simp [buildQueriesMetadata, he, ih]

/-- C5: for a `queryMetadata.json` whose `queriesMetadata` maps query names
to objects, `MashupMetadata.json` is
`{"Version": "1.0.0.0", "QueriesMetadata": [...]}` with one `{Name,
IsHidden?}` entry per query in document order, `IsHidden` present exactly
when `isHidden` is; and for a `.platform` whose `config` is absent or an
object, `Metadata.json` is `{"Name": displayName-or-"Dataflow",
"Description": "", "Version": "1.0.0.0"}`. -/
theorem template_metadata_derivation
    (m : List (String × Json)) (qs : List (String × List (String × Json)))
    (p : List (String × Json))
    (hq : jlookup m "queriesMetadata" =
      some (Json.obj (qs.map fun e => (e.1, Json.obj e.2))))
    (hc : jlookup p "config" = none ∨ ∃ c, jlookup p "config" = some (Json.obj c)) :
    create_mashup_metadata (Json.obj m) =
      some (Json.obj [("Version", Json.str "1.0.0.0"),
        ("QueriesMetadata", Json.arr (qs.map fun e => claimedQueryEntry e.1 e.2))]) ∧
    create_metadata (Json.obj p) =
      some (Json.obj [("Name", claimedDisplayName p), ("Description", Json.str ""),
        ("Version", Json.str "1.0.0.0")]) := by
  constructor
  · simp [create_mashup_metadata, jsonContainsKey, hq, jsonGetItemStr, jsonItems,
      buildQueriesMetadata_objs]
  · rcases hc with hc | ⟨c, hc⟩
    · simp [create_metadata, dictGet, hc, claimedDisplayName, jlookup]
    · simp [create_metadata, dictGet, hc, claimedDisplayName]

/-- Witness for C5 at the spec's example: one query with `isHidden: true`
and a `.platform` with `displayName: "Sales"`. -/
theorem template_metadata_derivation_witness :
    create_mashup_metadata (Json.obj [("queriesMetadata", Json.obj
        [("Query1", Json.obj [("isHidden", Json.bool true)])])]) =
      some (Json.obj [("Version", Json.str "1.0.0.0"),
        ("QueriesMetadata", Json.arr [Json.obj [("Name", Json.str "Query1"),
          ("IsHidden", Json.bool true)]])]) ∧
    create_metadata (Json.obj [("config", Json.obj [("displayName", Json.str "Sales")])]) =
      some (Json.obj [("Name", Json.str "Sales"), ("Description", Json.str ""),
        ("Version", Json.str "1.0.0.0")]) :=
  template_metadata_derivation
    [("queriesMetadata", Json.obj [("Query1", Json.obj [("isHidden", Json.bool true)])])]
    [("Query1", [("isHidden", Json.bool true)])]
    [("config", Json.obj [("displayName", Json.str "Sales")])]
    rfl (Or.inr ⟨[("displayName", Json.str "Sales")], rfl⟩)

/-- C6 counterexample: the code removes every occurrence of `.json`, not
just the extension.  On `WS_.json_a__b__c__d.json` the code parses metadata
although the extension-only criterion of the claim yields only four tokens
(no metadata), so the claimed "exactly when" is false. -/
theorem filename_parser_claim_counterexample :
    extract_metadata_from_filename "WS_.json_a__b__c__d.json" =
      some ⟨"a", "b", "c", "d"⟩ ∧
    extract_metadata_claimed "WS_.json_a__b__c__d.json" = none := ⟨rfl, rfl⟩

/-- C6 amended: the parser succeeds exactly when, after removing every
occurrence of the substring `.json` anywhere in the filename, splitting on
`__` yields at least 5 tokens with leading token `WS`, in which case it
returns the tokens at indices 1..4; otherwise it returns no metadata, and it
never throws. -/
theorem filename_parser_amended (filename : String) :
    (∀ w i n t rest,
      pySplit (pyReplace filename ".json" "") "__" = "WS" :: w :: i :: n :: t :: rest →
      extract_metadata_from_filename filename = some ⟨w, i, n, t⟩) ∧
    ((¬ ∃ w i n t rest,
      pySplit (pyReplace filename ".json" "") "__" = "WS" :: w :: i :: n :: t :: rest) →
      extract_metadata_from_filename filename = none) := by
  constructor
  · intro w i n t rest h
    simp [extract_metadata_from_filename, h]
  · intro h
    unfold extract_metadata_from_filename
    dsimp only
    split
    · next w i n t rest heq => exact absurd ⟨w, i, n, t, rest, heq⟩ h
    · rfl

/-- Witness for C6 at the spec's well-formed example filename. -/
theorem filename_parser_amended_witness :
    extract_metadata_from_filename "WS__abc__123__MyFlow__Dataflow.json" =
      some ⟨"abc", "123", "MyFlow", "Dataflow"⟩ :=
  (filename_parser_amended "WS__abc__123__MyFlow__Dataflow.json").1
    "abc" "123" "MyFlow" "Dataflow" [] rfl

/-- C7 counterexample: a failing staging-directory creation
(`pqtzip_dir.mkdir`, part of the claim's "staging-structure creation" step)
raises past the item boundary instead of returning false, because it runs
before the `try:`. -/
theorem template_assembler_mkdir_raises :
    create_pqtzip_structure ⟨false, true, none, none, true, true, true⟩ =
      Except.error "mkdir pqtzip failed" := rfl

/-- An optional-input staging step succeeds exactly when `stepFails` says
it does not, and otherwise raises. -/
theorem stagingStep_spec (content : Option (Option Json))
    (transform : Json → Option Json) (writeOk : Bool) (m1 m2 m3 : String) :
    (stepFails content transform writeOk = false →
      stagingStep content transform writeOk m1 m2 m3 = Except.ok ()) ∧
    (stepFails content transform writeOk = true →
      ∃ e, stagingStep content transform writeOk m1 m2 m3 = Except.error e) := by
  rcases content with _ | (_ | j)
  · exact ⟨fun _ => rfl, fun h => by simp [stepFails] at h⟩
  · exact ⟨fun h => by simp [stepFails] at h, fun _ => ⟨m1, rfl⟩⟩
  · rcases ht : transform j with _ | v
    · exact ⟨fun h => by simp [stepFails, ht] at h,
        fun _ => ⟨m2, by simp only [stagingStep, ht]; rfl⟩⟩
    · cases writeOk with
      | true => exact ⟨fun _ => by simp only [stagingStep, ht]; rfl,
          fun h => by simp [stepFails, ht] at h⟩
      | false => exact ⟨fun h => by simp [stepFails, ht] at h,
          fun _ => ⟨m3, by simp only [stagingStep, ht]; rfl⟩⟩

/-- The `try:` body succeeds exactly when `assembleBodyFails` is false, and
otherwise raises. -/
theorem pqtzipBody_spec (env : AssembleEnv) :
    (assembleBodyFails env = false → pqtzipBody env = Except.ok ()) ∧
    (assembleBodyFails env = true → ∃ e, pqtzipBody env = Except.error e) := by
  constructor
  · intro h
    simp only [assembleBodyFails, Bool.or_eq_false_iff, Bool.not_eq_true'] at h
    obtain ⟨⟨⟨h1, h2⟩, h3⟩, h4⟩ := h
    have e1 := (stagingStep_spec env.queryMetadataFile create_mashup_metadata
      env.writeMashupMetadataOk "read queryMetadata.json raised"
      "create_mashup_metadata raised" "write MashupMetadata.json failed").1 h2
    have e2 := (stagingStep_spec env.platformFile create_metadata
      env.writeMetadataOk "read .platform raised" "create_metadata raised"
      "write Metadata.json failed").1 h3
    simp [pqtzipBody, h1, h4, e1, e2]
    rfl
  · intro h
    cases hcp : env.copyMashupOk with
    | false => exact ⟨"copy mashup.pq failed", by simp [pqtzipBody, hcp]; rfl⟩
    | true =>
      cases hs1 : stepFails env.queryMetadataFile create_mashup_metadata
          env.writeMashupMetadataOk with
      | true =>
        obtain ⟨e, he⟩ := (stagingStep_spec env.queryMetadataFile
          create_mashup_metadata env.writeMashupMetadataOk
          "read queryMetadata.json raised" "create_mashup_metadata raised"
          "write MashupMetadata.json failed").2 hs1
        exact ⟨e, by simp [pqtzipBody, hcp, he]; rfl⟩
      | false =>
        have e1 := (stagingStep_spec env.queryMetadataFile create_mashup_metadata
          env.writeMashupMetadataOk "read queryMetadata.json raised"
          "create_mashup_metadata raised" "write MashupMetadata.json failed").1 hs1
        cases hs2 : stepFails env.platformFile create_metadata env.writeMetadataOk with
        | true =>
          obtain ⟨e, he⟩ := (stagingStep_spec env.platformFile create_metadata
            env.writeMetadataOk "read .platform raised" "create_metadata raised"
            "write Metadata.json failed").2 hs2
          exact ⟨e, by simp [pqtzipBody, hcp, e1, he]; rfl⟩
        | false =>
          have e2 := (stagingStep_spec env.platformFile create_metadata
            env.writeMetadataOk "read .platform raised" "create_metadata raised"
            "write Metadata.json failed").1 hs2
          cases hw3 : env.writeContentTypesOk with
          | false => exact ⟨"write content types failed",
              by simp [pqtzipBody, hcp, e1, e2, hw3]; rfl⟩
          | true => simp [assembleBodyFails, hcp, hs1, hs2, hw3] at h

/-- C7 amended: provided the staging-directory creation itself succeeds,
`create_pqtzip_structure` never raises past the item boundary and returns
exactly `false` when some later step (script copy, metadata derivation,
content-types write) fails and `true` when none does; and
`create_pqt_archive` never raises for any environment at all, returning
`true` exactly when the staging directory exists and the ZIP assembly
succeeds. -/
theorem template_assembler_no_raise (env : AssembleEnv) (hmk : env.mkdirOk = true) :
    create_pqtzip_structure env = Except.ok (!assembleBodyFails env) ∧
    (assembleBodyFails env = true → create_pqtzip_structure env = Except.ok false) ∧
    ∀ e z, create_pqt_archive e z = Except.ok (e && z) := by
  have hmain : create_pqtzip_structure env = Except.ok (!assembleBodyFails env) := by
    unfold create_pqtzip_structure
    rw [hmk]
    cases hf : assembleBodyFails env with
    | false => rw [(pqtzipBody_spec env).1 hf]; rfl
    | true =>
      obtain ⟨e, he⟩ := (pqtzipBody_spec env).2 hf
      rw [he]; rfl
  refine ⟨hmain, fun hf => by rw [hmain, hf]; rfl, ?_⟩
  intro e z
  cases e <;> cases z <;> rfl

/-- Witness for C7 amended: a copy failure after a successful mkdir is
caught and the item is marked failed with `false`. -/
theorem template_assembler_no_raise_witness :
    create_pqtzip_structure ⟨true, false, none, none, true, true, true⟩ =
      Except.ok false :=
  (template_assembler_no_raise ⟨true, false, none, none, true, true, true⟩ rfl).2.1 rfl

/-- C8: a missing source directory fails up front with the distinct
`notFound` outcome (no file is enumerated, the state is untouched); an
existing directory with zero `*.json` files fails by returning false with
the `noJsonFiles` outcome. -/
theorem batch_driver_not_found (d : SourceDir) :
    (d.dirExists = false →
      batch_decode_directory d = (false, d, [BatchMsg.notFound])) ∧
    (d.dirExists = true → d.files = [] →
      batch_decode_directory d = (false, d, [BatchMsg.noJsonFiles])) := by
  constructor
  · intro h
    simp [batch_decode_directory, h]
  · intro h hf
    simp [batch_decode_directory, h, hf]

/-- Witness for C8 at the two concrete failure states. -/
theorem batch_driver_not_found_witness :
    batch_decode_directory ⟨false, [], []⟩ = (false, ⟨false, [], []⟩, [BatchMsg.notFound]) ∧
    batch_decode_directory ⟨true, [], []⟩ = (false, ⟨true, [], []⟩, [BatchMsg.noJsonFiles]) :=
  ⟨(batch_driver_not_found ⟨false, [], []⟩).1 rfl,
    (batch_driver_not_found ⟨true, [], []⟩).2 rfl rfl⟩

/-- The source directory of the C9 counterexample: one well-named, valid
source file and no mapping lines yet. -/
def src9 : SourceDir :=
  ⟨true, [⟨"WS__a__b__c__d.json",
    some (Json.obj [("definition", Json.obj [("parts", Json.arr [])])])⟩], []⟩

/-- C9 counterexample: a first run over `src9` succeeds, deletes the source
file and appends its mapping line; the second run over the untouched result
finds zero `*.json` files, returns false and appends nothing — no duplicate
mapping lines appear, contrary to the claim. -/
theorem batch_rerun_counterexample :
    (batch_decode_directory src9).1 = true ∧
    (batch_decode_directory src9).2.1.mapping =
      ["item_001 | WorkspaceID: a | ItemID: b | Name: c | Type: d | File: WS__a__b__c__d.json"] ∧
    (batch_decode_directory src9).2.1.files = [] ∧
    batch_decode_directory (batch_decode_directory src9).2.1 =
      (false, (batch_decode_directory src9).2.1, [BatchMsg.noJsonFiles]) :=
  ⟨rfl, rfl, rfl, rfl⟩

/-- C9 amended: `item_mapping.txt` is opened in append mode, so any run over
a nonempty directory only appends to the existing lines (never rewrites or
deduplicates); duplicates for the same file arise exactly when an
already-mapped source file is presented to a later run again (successful
files are deleted, so a second run over the untouched result of a fully
successful run appends nothing). -/
theorem batch_rerun_append (d : SourceDir) (hd : d.dirExists = true)
    (hne : d.files ≠ []) :
    (∃ new, (batch_decode_directory d).2.1.mapping = d.mapping ++ new) ∧
    (∀ f m, fileDecodes f = true →
      (batch_decode_directory ⟨true, [f], m ++ [mappingLine 1 f.name]⟩).2.1.mapping =
        m ++ [mappingLine 1 f.name] ++ [mappingLine 1 f.name]) := by
  constructor
  · have h3 : d.files.isEmpty = false := by
      cases hf : d.files with
      | nil => exact absurd hf hne
      | cons a l => rfl
    rcases hb : batchLoop 1 d.files with ⟨kept, lines, msgs, s, e⟩
    refine ⟨lines, ?_⟩
    simp [batch_decode_directory, hd, h3, hb]
  · intro f m hf
    simp [batch_decode_directory, batchLoop, hf]

/-- Witness for C9 amended: re-presenting an already-mapped file appends its
line a second time. -/
theorem batch_rerun_append_witness :
    (batch_decode_directory ⟨true, [⟨"WS__a__b__c__d.json", some (Json.obj [])⟩],
        ["x"] ++ [mappingLine 1 "WS__a__b__c__d.json"]⟩).2.1.mapping =
      ["x"] ++ [mappingLine 1 "WS__a__b__c__d.json"] ++
        [mappingLine 1 "WS__a__b__c__d.json"] :=
  (batch_rerun_append ⟨true, [⟨"WS__a__b__c__d.json", some (Json.obj [])⟩],
      ["x"] ++ [mappingLine 1 "WS__a__b__c__d.json"]⟩ rfl (by simp)).2
    ⟨"WS__a__b__c__d.json", some (Json.obj [])⟩ ["x"] rfl

/-- Removing a key then appending a fresh binding makes the lookup return
the fresh value. -/
theorem dirLookup_remove_append (m : DirMap) (k : String) (v : Nat) :
    dirLookup (dirRemove m k ++ [(k, v)]) k = some v := by
  induction m with
  | nil => simp [dirRemove, dirLookup]
  | cons p rest ih =>
    by_cases h : p.1 = k
    · simpa [dirRemove, h] using ih
    · simpa [dirRemove, dirLookup, h] using ih

/-- C10: in the partition step, an item holding its `.pqt` archive whose
destination `with_dataflows/<name>` already exists has that destination
recursively deleted (`rmtree`) before the move, and afterwards the
destination holds the moved item's content — the move is
overwrite-destructive, whereas the step-4 copy skips an existing
destination untouched. -/
theorem partition_move_overwrites (wd : DirMap) (i : ItemDir) (old : Nat)
    (hpqt : i.hasPqt = true) (hexist : dirLookup wd i.name = some old) :
    (movePqtItem wd i).2 = [MoveOp.rmtree i.name, MoveOp.move i.name] ∧
    dirLookup (movePqtItem wd i).1 i.name = some i.content ∧
    ∀ out : DirMap, (dirLookup out i.name).isSome = true →
      copyDataflowItem out i = (out, false) := by
  refine ⟨?_, ?_, ?_⟩
  · simp [movePqtItem, hpqt, hexist]
  · simp only [movePqtItem, hpqt, Bool.not_true, Bool.false_eq_true, if_false,
      hexist, Option.isSome_some, if_true]
    exact dirLookup_remove_append wd i.name i.content
  · intro out hout
    simp [copyDataflowItem, hout]

/-- Witness for C10: an existing destination with old content 7 is replaced
by the moved item's content 42, with the rmtree traced before the move, and
the copy step skips the existing destination. -/
theorem partition_move_overwrites_witness :
    (movePqtItem [("item_001", 7)] ⟨"item_001", true, 42⟩).2 =
      [MoveOp.rmtree "item_001", MoveOp.move "item_001"] ∧
    dirLookup (movePqtItem [("item_001", 7)] ⟨"item_001", true, 42⟩).1 "item_001" =
      some 42 ∧
    copyDataflowItem [("item_001", 7)] ⟨"item_001", true, 42⟩ = ([("item_001", 7)], false) :=
  ⟨(partition_move_overwrites [("item_001", 7)] ⟨"item_001", true, 42⟩ 7 rfl rfl).1,
    (partition_move_overwrites [("item_001", 7)] ⟨"item_001", true, 42⟩ 7 rfl rfl).2.1,
    (partition_move_overwrites [("item_001", 7)] ⟨"item_001", true, 42⟩ 7 rfl rfl).2.2
      [("item_001", 7)] rfl⟩

end PQT
